import Mathlib

/-!
Verification of the localStorage-backed API shim (`src/client/src/configs/api.js`)
of the resume-builder repository.

Modelling conventions (shallow embedding):
* `localStorage` is a `Store` record with one cell per fixed key
  (`arb_user`, `arb_token`, `arb_resumes`).  A cell is modelled by the parse
  outcome of its raw string: `absent` (key missing), `blank` (empty string,
  falsy before parsing), `corrupt` (non-empty string that fails `JSON.parse`),
  or `stored v` (valid JSON of the expected shape).  `writeJson` always stores
  a shape-correct value, so only externally corrupted cells need the extra
  constructors.  The token cell is read raw by the code, so it is a plain
  `Option String`.
* ISO-8601 timestamps produced by `nowIso()` are modelled by the underlying
  millisecond count, a `Nat`; comparison of `new Date(x).getTime()` values is
  comparison of these `Nat`s.  The `nowIso()` calls performed inside a single
  request are modelled as one instant `now`, passed to `handleRequest`.
* `Math.random().toString(36).slice(2, 10)` is modelled by an oracle
  argument `rand : String`; its characters are base-36 digits, which the
  theorems assume explicitly where needed.
* JavaScript object spread (`{...a, ...b}`) over `personal_info` is modelled
  on association lists with distinct keys (JS objects cannot repeat keys).
* Request bodies are modelled after parsing: the `FormData` variant of the
  update body carries its `resumeData` part already JSON-decoded, and the
  uploaded image is represented by the outcome of its data-URL conversion
  (`some url` on success, `none` when the file reader fails).
-/

/-- The set of characters matched by the JavaScript regular-expression class
`\s` (also the set trimmed by `String.prototype.trim`). -/
def jsWs (c : Char) : Bool :=
  c.toNat = 0x9 ∨ c.toNat = 0xA ∨ c.toNat = 0xB ∨ c.toNat = 0xC ∨ c.toNat = 0xD ∨
  c.toNat = 0x20 ∨ c.toNat = 0xA0 ∨ c.toNat = 0x1680 ∨
  (0x2000 ≤ c.toNat ∧ c.toNat ≤ 0x200A) ∨
  c.toNat = 0x2028 ∨ c.toNat = 0x2029 ∨ c.toNat = 0x202F ∨ c.toNat = 0x205F ∨
  c.toNat = 0x3000 ∨ c.toNat = 0xFEFF

/-- Characters matched by `.` in a JavaScript regular expression without the
`s` flag: everything except line terminators. -/
def jsDotChar (c : Char) : Bool :=
  ¬ (c.toNat = 0xA ∨ c.toNat = 0xD ∨ c.toNat = 0x2028 ∨ c.toNat = 0x2029)

/-- Base-36 digits, as produced by `Number.prototype.toString(36)` and by
`Math.random().toString(36)`. -/
def b36Char (c : Char) : Bool :=
  (48 ≤ c.toNat ∧ c.toNat ≤ 57) ∨ (97 ≤ c.toNat ∧ c.toNat ≤ 122)

/-- Hexadecimal digit value, used by the percent-decoder. -/
def hexVal (c : Char) : Option Nat :=
  if '0' ≤ c ∧ c ≤ '9' then some (c.toNat - 48)
  else if 'A' ≤ c ∧ c ≤ 'F' then some (c.toNat - 55)
  else if 'a' ≤ c ∧ c ≤ 'f' then some (c.toNat - 87)
  else none

/-- Modelled JS builtin: the ASCII core of `decodeURIComponent`.  A `%` that
is followed by two hex digits is decoded to the corresponding code point;
everything else passes through unchanged.  (Multi-byte UTF-8 sequences and
the `URIError` raised on malformed input are outside the modelled fragment;
no route in the claims is exercised with such an id.) -/
def decodeChars : List Char → List Char
  | [] => []
  | c :: rest =>
    if c = '%' then
      match rest with
      | a :: b :: rest' =>
        match hexVal a, hexVal b with
        | some x, some y => Char.ofNat (16 * x + y) :: decodeChars rest'
        | _, _ => c :: a :: b :: decodeChars rest'
      | [] => [c]
      | [a] => [c, a]
    else c :: decodeChars rest

/-- `decodeURIComponent`, on `String`. -/
def decodeURIComponent (s : String) : String :=
  String.mk (decodeChars s.data)

/-- Drop an expected literal head from a character list; `none` when the list
does not start with that head.  This is the anchored-literal part of the
route patterns such as `^\/api\/resumes\/get\/(.+)$`. -/
def dropPre : List Char → List Char → Option (List Char)
  | [], cs => some cs
  | _ :: _, [] => none
  | p :: ps, c :: cs => if c = p then dropPre ps cs else none

/-- `String.prototype.trim`: remove leading whitespace. -/
def trimLeftWs (cs : List Char) : List Char :=
  cs.dropWhile jsWs

/-- `String.prototype.trim`: remove leading and trailing whitespace. -/
def trimBoth (cs : List Char) : List Char :=
  ((cs.dropWhile jsWs).reverse.dropWhile jsWs).reverse

/-- Helper for `collapseWs`: the flag records whether the previous character
belonged to a whitespace run whose single `' '` has already been emitted. -/
def collapseWsAux : Bool → List Char → List Char
  | _, [] => []
  | prevWs, c :: cs =>
    if jsWs c then
      if prevWs then collapseWsAux true cs
      else ' ' :: collapseWsAux true cs
    else c :: collapseWsAux false cs

/-- `replace(/\s+/g, " ")`: collapse each maximal run of whitespace into a
single space. -/
def collapseWs (cs : List Char) : List Char :=
  collapseWsAux false cs

/-- Length of a string in UTF-16 code units, which is what the JavaScript
`length` property counts. -/
def utf16Len (cs : List Char) : Nat :=
  (cs.map (fun c => if c.toNat ≥ 0x10000 then 2 else 1)).sum

/-- One base-36 digit (`0`-`9`, `a`-`z`). -/
def b36digit (n : Nat) : Char :=
  if n < 10 then Char.ofNat (48 + n) else Char.ofNat (87 + n)

/-- Digits of `n` in base 36, most significant first, accumulated in `acc`;
the first argument is fuel (structural recursion; `n` itself is always
enough fuel since `n / 36 < n` for positive `n`). -/
def natToB36Aux : Nat → Nat → List Char → List Char
  | 0, _, acc => acc
  | _ + 1, 0, acc => acc
  | fuel + 1, n + 1, acc => natToB36Aux fuel ((n + 1) / 36) (b36digit ((n + 1) % 36) :: acc)

/-- `Number.prototype.toString(36)` for a natural number (the shim applies it
to `Date.now()`). -/
def natToB36 (n : Nat) : String :=
  if n = 0 then "0" else String.mk (natToB36Aux n n [])

/-- `String.prototype.endsWith`. -/
def strEndsWith (s suf : String) : Bool :=
  suf.data.isSuffixOf s.data

/-- The user record persisted under the `arb_user` key (see `ensureSeed` and
the login/register handler in `api.js`). -/
structure User where
  _id : String
  name : String
  email : String
deriving DecidableEq, Repr

/-- `personal_info` is a JS object with arbitrary string keys (one of them the
optional embedded image data-URL); modelled as an association list with
distinct keys, in property order. -/
abbrev PersonalInfo : Type := List (String × String)

/-- The resume aggregate created by the create/upload handlers of `api.js`.
The `experience`/`education`/`project`/`skills` entries are opaque to the
shim and modelled as opaque values; timestamps are milliseconds (see the
module comment). -/
structure Resume where
  _id : String
  title : String
  personal_info : PersonalInfo
  professional_summary : String
  experience : List String
  education : List String
  project : List String
  skills : List String
  template : String
  accent_color : String
  public : Bool
  createdAt : Nat
  updatedAt : Nat
deriving DecidableEq, Repr

/-- A partial update body (`resumeData`): each top-level property is either
present (`some`) or absent.  A JS object may of course carry an `_id` or
`createdAt` property, so those are representable too. -/
structure ResumeData where
  _id : Option String := none
  title : Option String := none
  personal_info : Option PersonalInfo := none
  professional_summary : Option String := none
  experience : Option (List String) := none
  education : Option (List String) := none
  project : Option (List String) := none
  skills : Option (List String) := none
  template : Option String := none
  accent_color : Option String := none
  public : Option Bool := none
  createdAt : Option Nat := none
  updatedAt : Option Nat := none
deriving DecidableEq, Repr

/-- The empty `resumeData` object `{}` that the update handler substitutes
when the body carries none. -/
def emptyResumeData : ResumeData := {}

/-- A raw `localStorage` cell, abstracted by the outcome of `JSON.parse` on
its raw string: missing key, empty string, unparsable string, or a stored
value of the expected shape. -/
inductive Cell (α : Type) where
  | absent
  | blank
  | corrupt
  | stored (val : α)
deriving DecidableEq, Repr

/-- The whole persistent store: the three fixed keys `arb_user`, `arb_token`
and `arb_resumes`.  The token is read raw (plain `getItem`), so its cell is
just the raw string when present. -/
structure Store where
  user : Cell User
  token : Option String
  resumes : Cell (List Resume)
deriving DecidableEq, Repr

/-- `readJson(key, fallback)`: returns the parsed value, or the fallback when
the key is missing, the raw string is empty, or parsing throws. -/
def readJson {α : Type} (c : Cell α) (fallback : α) : α :=
  match c with
  | .stored v => v
  | _ => fallback

/-- `readJson(key, null)`: the same read with a `null` fallback, as used by
`ensureSeed` and the user handler; `none` models `null`. -/
def readJsonOrNull {α : Type} (c : Cell α) : Option α :=
  match c with
  | .stored v => some v
  | _ => none

/-- The default user written by `ensureSeed`. -/
def defaultUser : User :=
  { _id := "local_user", name := "Joe Doe", email := "joe@example.com" }

/-- `ensureSeed()`: for each of the three keys, write the default when the
current read is falsy (missing user object, missing or empty token string,
missing resume array). -/
def ensureSeed (s : Store) : Store :=
  { user :=
      match readJsonOrNull s.user with
      | some _ => s.user
      | none => .stored defaultUser
    token :=
      match s.token with
      | some t => if t = "" then some "local_token" else some t
      | none => some "local_token"
    resumes :=
      match readJsonOrNull s.resumes with
      | some _ => s.resumes
      | none => .stored [] }

/-- `getResumes()`: seed, then read the collection with `[]` fallback. -/
def getResumes (s : Store) : List Resume × Store :=
  let s' := ensureSeed s
  (readJson s'.resumes [], s')

/-- `setResumes(resumes)`: persist the full collection. -/
def setResumes (rs : List Resume) (s : Store) : Store :=
  { s with resumes := .stored rs }

/-- `findResume(resumeId)`: linear scan by `_id` (`null` when absent). -/
def findResume (rid : String) (s : Store) : Option Resume × Store :=
  let (rs, s') := getResumes s
  (rs.find? (fun r => r._id == rid), s')

/-- The list surgery of `upsertResume`: replace the first entry with the same
`_id` in place, else append. -/
def upsertList (u : Resume) : List Resume → List Resume
  | [] => [u]
  | r :: rs => if r._id == u._id then u :: rs else r :: upsertList u rs

/-- `upsertResume(updated)`: read, splice, persist. -/
def upsertResume (u : Resume) (s : Store) : Store :=
  let (rs, s') := getResumes s
  setResumes (upsertList u rs) s'

/-- `makeId(prefix)`: `"{prefix}_{base36 timestamp}_{random suffix}"`, with
the clock and the random suffix supplied as oracles. -/
def makeId (pre : String) (now : Nat) (rand : String) : String :=
  pre ++ "_" ++ natToB36 now ++ "_" ++ rand

/-- Content of the greedy group once the regex `/"([\s\S]*)"/` has anchored
its opening quote: everything up to (excluding) the last `"` of the rest of
the input, `none` when no closing quote exists. -/
def upToLastQuote : List Char → Option (List Char)
  | [] => none
  | c :: cs =>
    match upToLastQuote cs with
    | some rest => some (c :: rest)
    | none => if c = '"' then some [] else none

/-- `prompt.match(/"([\s\S]*)"/)`: leftmost match, greedy group — the content
between the first `"` and the last `"` of the input (`none` when fewer than
two quotes occur). -/
def jsQuoteMatch : List Char → Option (List Char)
  | [] => none
  | c :: cs => if c = '"' then upToLastQuote cs else jsQuoteMatch cs

/-- The boilerplate sentence prepended to short enhanced content. -/
def boilerplate : String :=
  "Results-driven professional with a strong focus on impact. "

/-- The stage of `enhanceText` that follows quoted-content extraction:
trim; empty means empty output; collapse whitespace and re-trim;
prepend the boilerplate when the result is shorter than 80 UTF-16 units. -/
def enhanceStage (base0 : List Char) : String :=
  let base := trimBoth base0
  if base = [] then ""
  else
    let cleaned := trimBoth (collapseWs base)
    if utf16Len cleaned < 80 then boilerplate ++ String.mk cleaned
    else String.mk cleaned

/-- `enhanceText(prompt)`: `prompt` may be `undefined` (`none`); the whole
prompt is used when the quoted-extraction regex does not match. -/
def enhanceText (prompt : Option String) : String :=
  match prompt with
  | none => enhanceStage []
  | some p =>
    match jsQuoteMatch p.data with
    | some g => enhanceStage g
    | none => enhanceStage p.data

/-- Modelled from the spec's words, for comparison with `jsQuoteMatch`:
"extracts the first double-quoted substring from `prompt`" — the content
between the first `"` and the *next* `"`. -/
def firstQuotedLazy : List Char → Option (List Char)
  | [] => none
  | c :: cs =>
    if c = '"' then
      if cs.any (fun d => d == '"') then some (cs.takeWhile (fun d => ¬ d == '"'))
      else none
    else firstQuotedLazy cs

/-- Modelled from the spec's words: the enhancement transform as the claim
states it, using first-quoted-substring extraction, with the same
post-extraction stage. -/
def enhanceTextSpecFirst (p : String) : String :=
  match firstQuotedLazy p.data with
  | some g => enhanceStage g
  | none => enhanceStage p.data

instance {ε α : Type} [DecidableEq ε] [DecidableEq α] : DecidableEq (Except ε α) := fun a b =>
  match a, b with
  | .ok x, .ok y => if h : x = y then isTrue (by rw [h]) else isFalse (by simp [h])
  | .error x, .error y => if h : x = y then isTrue (by rw [h]) else isFalse (by simp [h])
  | .ok _, .error _ => isFalse (by simp)
  | .error _, .ok _ => isFalse (by simp)

/-- The structured failure thrown by the shim:
`{message, response: {status, data: {message}}}`. -/
structure ErrData where
  message : String
deriving DecidableEq, Repr

/-- The `response` part of a structured failure. -/
structure ErrResponse where
  status : Nat
  data : ErrData
deriving DecidableEq, Repr

/-- `axiosLikeError`'s result shape. -/
structure ApiError where
  message : String
  response : ErrResponse
deriving DecidableEq, Repr

/-- `axiosLikeError(message, status = 400)`. -/
def axiosLikeError (message : String) (status : Nat := 400) : ApiError :=
  { message, response := { status, data := { message } } }

/-- The success payloads the handlers return (each constructor is one of the
object shapes occurring in `handleRequest`). -/
inductive ApiData where
  | userData (user : Option User)
  | resumesData (resumes : List Resume)
  | authData (token : String) (user : User) (message : String)
  | resumeCreated (resume : Resume) (message : String)
  | resumeGot (resume : Resume)
  | resumeUpdated (resume : Resume) (message : String)
  | deleted (message : String)
  | enhanced (enhancedContent : String)
  | uploaded (resumeId : String) (message : String)
deriving DecidableEq, Repr

/-- The two shapes the update route accepts: a plain
`{resumeId, resumeData}` object, or a `FormData` with a `resumeId` part, an
optional JSON-encoded `resumeData` part, and an optional image part (the
image is carried as the outcome of its data-URL conversion: `some url` when
the file reader succeeds, `none` when it errors). -/
inductive UpdateBody where
  | plain (resumeId : Option String) (resumeData : Option ResumeData)
  | form (resumeId : Option String) (resumeData : Option ResumeData)
      (image : Option (Option String))
deriving DecidableEq, Repr

/-- A request body, modelled per shape; `noBody` is `undefined`.  A handler
reading a property that the body shape does not carry observes `undefined`,
exactly as in JS. -/
inductive ReqBody where
  | noBody
  | login (name : Option String) (email : Option String)
  | create (title : Option String)
  | update (u : UpdateBody)
  | enhance (userContent : Option String)
  | upload (title : Option String) (resumeText : Option String)
deriving DecidableEq, Repr

/-- `body?.name`. -/
def bodyName : ReqBody → Option String
  | .login n _ => n
  | _ => none

/-- `body?.email`. -/
def bodyEmail : ReqBody → Option String
  | .login _ e => e
  | _ => none

/-- `body?.title`. -/
def bodyTitle : ReqBody → Option String
  | .create t => t
  | .upload t _ => t
  | _ => none

/-- `body?.userContent`. -/
def bodyUserContent : ReqBody → Option String
  | .enhance c => c
  | _ => none

/-- `body?.resumeText`. -/
def bodyResumeText : ReqBody → Option String
  | .upload _ t => t
  | _ => none

/-- The update handler's view of the body: any non-update-shaped body reads
as one carrying neither `resumeId` nor `resumeData`. -/
def bodyUpdate : ReqBody → UpdateBody
  | .update u => u
  | _ => .plain none none

/-- JavaScript object spread `{...a, ...b}` on association lists: the keys of
`a` keep their positions (values overridden by `b` where `b` also has the
key), and the keys of `b` that are new are appended in `b`'s order. -/
def spreadMerge (a b : List (String × String)) : List (String × String) :=
  a.map (fun kv =>
      match b.lookup kv.1 with
      | some v => (kv.1, v)
      | none => kv)
    ++ b.filter (fun kv => (a.lookup kv.1).isNone)

/-- The merge performed by the update handler:
`{...existing, ...resumeData, personal_info: {...existing.personal_info, ...resumeData.personal_info}, updatedAt: nowIso()}`. -/
def applyUpdate (existing : Resume) (rd : ResumeData) (now : Nat) : Resume :=
  { _id := rd._id.getD existing._id
    title := rd.title.getD existing.title
    personal_info :=
      spreadMerge existing.personal_info (rd.personal_info.getD [])
    professional_summary := rd.professional_summary.getD existing.professional_summary
    experience := rd.experience.getD existing.experience
    education := rd.education.getD existing.education
    project := rd.project.getD existing.project
    skills := rd.skills.getD existing.skills
    template := rd.template.getD existing.template
    accent_color := rd.accent_color.getD existing.accent_color
    public := rd.public.getD existing.public
    createdAt := rd.createdAt.getD existing.createdAt
    updatedAt := now }

/-- One step of the stable descending sort on `updatedAt`: insert `r` before
the first element strictly older than it (so an equally-recent element that
was stored earlier stays first). -/
def insertDesc (r : Resume) : List Resume → List Resume
  | [] => [r]
  | x :: xs => if x.updatedAt ≤ r.updatedAt then r :: x :: xs else x :: insertDesc r xs

/-- `slice().sort((a, b) => new Date(b.updatedAt).getTime() - new Date(a.updatedAt).getTime())`:
`Array.prototype.sort` is a stable sort (ECMAScript 2019), and a stable sort
under this comparator is exactly this insertion sort. -/
def sortByUpdatedDesc : List Resume → List Resume
  | [] => []
  | r :: rs => insertDesc r (sortByUpdatedDesc rs)

/-- `normalizeUrl(url)`: empty (falsy) becomes `/`; otherwise a leading `/`
is ensured. -/
def normalizeUrl (url : String) : String :=
  if url = "" then "/"
  else if url.data.head? = some '/' then url
  else "/" ++ url

/-- Match a parameterized route pattern `^{pre}(.+)$` against a path: the
literal head must match and the capture must be a non-empty run of
non-line-terminator characters. -/
def matchCapture (pre path : String) : Option String :=
  match dropPre pre.data path.data with
  | some rest =>
    if rest ≠ [] ∧ rest.all jsDotChar then some (String.mk rest) else none
  | none => none

/-- The routes of the shim's dispatch chain, with their captured raw path
parameter where they have one. -/
inductive Route where
  | usersData
  | usersResumes
  | auth (isRegister : Bool)
  | create
  | getOne (raw : String)
  | publicOne (raw : String)
  | update
  | del (raw : String)
  | enhancePS
  | enhanceJD
  | upload
deriving DecidableEq, Repr

/-- The dispatch chain of `handleRequest`, in source order, factored as a
route table: the first guard that holds selects the route. -/
def matchRoute (method path : String) : Option Route :=
  if method = "GET" ∧ path = "/api/users/data" then some Route.usersData
  else if method = "GET" ∧ path = "/api/users/resumes" then some Route.usersResumes
  else if method = "POST" ∧ (path = "/api/users/login" ∨ path = "/api/users/register") then
    some (Route.auth (strEndsWith path "register"))
  else if method = "POST" ∧ path = "/api/resumes/create" then some Route.create
  else if method = "GET" ∧ (matchCapture "/api/resumes/get/" path).isSome then
    (matchCapture "/api/resumes/get/" path).map Route.getOne
  else if method = "GET" ∧ (matchCapture "/api/resumes/public/" path).isSome then
    (matchCapture "/api/resumes/public/" path).map Route.publicOne
  else if method = "PUT" ∧ path = "/api/resumes/update" then some Route.update
  else if method = "DELETE" ∧ (matchCapture "/api/resumes/delete/" path).isSome then
    (matchCapture "/api/resumes/delete/" path).map Route.del
  else if method = "POST" ∧ path = "/api/ai/enhance-pro-sum" then some Route.enhancePS
  else if method = "POST" ∧ path = "/api/ai/enhance-job-desc" then some Route.enhanceJD
  else if method = "POST" ∧ path = "/api/ai/upload-resume" then some Route.upload
  else none

/-- The route table as a predicate: does some route of the fixed table accept
this (method, normalized path) pair?  Spelled out as the disjunction of the
eleven guards, to be compared with the dispatch chain `matchRoute`. -/
def routeMatches (method path : String) : Bool :=
  (method == "GET" && path == "/api/users/data") ||
  (method == "GET" && path == "/api/users/resumes") ||
  (method == "POST" && (path == "/api/users/login" || path == "/api/users/register")) ||
  (method == "POST" && path == "/api/resumes/create") ||
  (method == "GET" && (matchCapture "/api/resumes/get/" path).isSome) ||
  (method == "GET" && (matchCapture "/api/resumes/public/" path).isSome) ||
  (method == "PUT" && path == "/api/resumes/update") ||
  (method == "DELETE" && (matchCapture "/api/resumes/delete/" path).isSome) ||
  (method == "POST" && path == "/api/ai/enhance-pro-sum") ||
  (method == "POST" && path == "/api/ai/enhance-job-desc") ||
  (method == "POST" && path == "/api/ai/upload-resume")

/-- `body?.name?.trim() || fallback`. -/
def trimOrDefault (v : Option String) (fb : String) : String :=
  match v with
  | some n =>
    let t := String.mk (trimBoth n.data)
    if t = "" then fb else t
  | none => fb

/-- `(body?.title || fallback).toString()`. -/
def strOrDefault (v : Option String) (fb : String) : String :=
  match v with
  | some t => if t = "" then fb else t
  | none => fb

/-- The new resume object built by the create handler. -/
def freshResume (title : String) (now : Nat) (rand : String) : Resume :=
  { _id := makeId "resume" now rand
    title := title
    personal_info := []
    professional_summary := ""
    experience := []
    education := []
    project := []
    skills := []
    template := "classic"
    accent_color := "#3B82F6"
    public := false
    createdAt := now
    updatedAt := now }

/-- `resumeText.trim().slice(0, 600)`: keep a prefix of at most 600 UTF-16
units (makeshift for the upload handler; JS `slice` counts code units). -/
def takeUtf16 (budget : Nat) : List Char → List Char
  | [] => []
  | c :: cs =>
    let w := if c.toNat ≥ 0x10000 then 2 else 1
    if w ≤ budget then c :: takeUtf16 (budget - w) cs else []

/-- The `resumeId` the update handler reads off either body shape
(`body.get("resumeId")` or `body?.resumeId`). -/
def ridOf : UpdateBody → Option String
  | .plain r _ => r
  | .form r _ _ => r

/-- The `resumeData` the update handler reads off either body shape, with the
`{}` default for a missing part. -/
def rdOf : UpdateBody → ResumeData
  | .plain _ rd => rd.getD emptyResumeData
  | .form _ rd _ => rd.getD emptyResumeData

/-- The image part (conversion outcome) of the body; a plain body never
carries one. -/
def imgOf : UpdateBody → Option (Option String)
  | .plain _ _ => none
  | .form _ _ i => i

/-- `next.personal_info = {...next.personal_info, image: dataUrl}` when an
image part converted successfully; a failed conversion keeps the resume
as merged. -/
def patchImage (r : Resume) : Option (Option String) → Resume
  | some (some url) => { r with personal_info := spreadMerge r.personal_info [("image", url)] }
  | _ => r

/-- The update handler, after the route has matched: body normalization,
presence check (400), lookup (404), merge, optional image embedding,
persistence. -/
def updateHandler (u : UpdateBody) (now : Nat) (s : Store) :
    Except ApiError ApiData × Store :=
  match ridOf u with
  | none => (.error (axiosLikeError "resumeId is required" 400), s)
  | some rid =>
    if rid = "" then (.error (axiosLikeError "resumeId is required" 400), s)
    else
      match findResume rid s with
      | (none, s') => (.error (axiosLikeError "Resume not found" 404), s')
      | (some existing, s') =>
        let next' := patchImage (applyUpdate existing (rdOf u) now) (imgOf u)
        (.ok (.resumeUpdated next' "Resume updated"), upsertResume next' s')

/-- The handler bound to each route, acting on the seeded store. -/
def runRoute (r : Route) (body : ReqBody) (now : Nat) (rand : String) (s : Store) :
    Except ApiError ApiData × Store :=
  match r with
  | .usersData => (.ok (.userData (readJsonOrNull s.user)), s)
  | .usersResumes =>
    let (rs, s') := getResumes s
    (.ok (.resumesData (sortByUpdatedDesc rs)), s')
  | .auth isRegister =>
    let user : User :=
      { _id := "local_user"
        name := trimOrDefault (bodyName body) "Joe Doe"
        email := trimOrDefault (bodyEmail body) "joe@example.com" }
    (.ok (.authData "local_token" user
        (if isRegister then "Registered (local)" else "Logged in (local)")),
      { s with user := .stored user, token := some "local_token" })
  | .create =>
    let resume := freshResume (strOrDefault (bodyTitle body) "Untitled Resume") now rand
    (.ok (.resumeCreated resume "Resume created"), upsertResume resume s)
  | .getOne raw =>
    let rid := decodeURIComponent raw
    (match findResume rid s with
     | (none, s') => (.error (axiosLikeError "Resume not found" 404), s')
     | (some r, s') => (.ok (.resumeGot r), s'))
  | .publicOne raw =>
    let rid := decodeURIComponent raw
    (match findResume rid s with
     | (none, s') => (.error (axiosLikeError "Resume not found" 404), s')
     | (some r, s') =>
       if r.public then (.ok (.resumeGot r), s')
       else (.error (axiosLikeError "Resume not found" 404), s'))
  | .update => updateHandler (bodyUpdate body) now s
  | .del raw =>
    let rid := decodeURIComponent raw
    let (rs, s') := getResumes s
    (.ok (.deleted "Resume deleted"), setResumes (rs.filter (fun r => ¬ r._id == rid)) s')
  | .enhancePS => (.ok (.enhanced (enhanceText (bodyUserContent body))), s)
  | .enhanceJD => (.ok (.enhanced (enhanceText (bodyUserContent body))), s)
  | .upload =>
    let resumeText := strOrDefault (bodyResumeText body) ""
    let resume :=
      { freshResume (strOrDefault (bodyTitle body) "Uploaded Resume") now rand with
        professional_summary := String.mk (takeUtf16 600 (trimBoth resumeText.data)) }
    (.ok (.uploaded resume._id "Resume uploaded"), upsertResume resume s)

/-- `handleRequest(method, url, body)`: seed, normalize, dispatch; unmatched
pairs raise the 404 "No local route" failure naming the method and path. -/
def handleRequest (method url : String) (body : ReqBody) (now : Nat) (rand : String)
    (s : Store) : Except ApiError ApiData × Store :=
  let s₁ := ensureSeed s
  let path := normalizeUrl url
  match matchRoute method path with
  | some r => runRoute r body now rand s₁
  | none =>
    (.error (axiosLikeError ("No local route for " ++ method ++ " " ++ path) 404), s₁)

/-- The `{data}` success envelope of the four verb entry points. -/
structure AxiosResponse where
  data : ApiData
deriving DecidableEq, Repr

/-- `api.get(url)`. -/
def apiGet (url : String) (now : Nat) (rand : String) (s : Store) :
    Except ApiError AxiosResponse × Store :=
  let (res, s') := handleRequest "GET" url .noBody now rand s
  (res.map AxiosResponse.mk, s')

/-- `api.post(url, body)`. -/
def apiPost (url : String) (body : ReqBody) (now : Nat) (rand : String) (s : Store) :
    Except ApiError AxiosResponse × Store :=
  let (res, s') := handleRequest "POST" url body now rand s
  (res.map AxiosResponse.mk, s')

/-- `api.put(url, body)`. -/
def apiPut (url : String) (body : ReqBody) (now : Nat) (rand : String) (s : Store) :
    Except ApiError AxiosResponse × Store :=
  let (res, s') := handleRequest "PUT" url body now rand s
  (res.map AxiosResponse.mk, s')

/-- `api.delete(url)`. -/
def apiDelete (url : String) (now : Nat) (rand : String) (s : Store) :
    Except ApiError AxiosResponse × Store :=
  let (res, s') := handleRequest "DELETE" url .noBody now rand s
  (res.map AxiosResponse.mk, s')

/-! Basic facts about the string utilities. -/

theorem append_lit_ne (p q : String) (i : Nat) (hi : i < p.data.length)
    (hne : p.data[i]? ≠ q.data[i]?) : ∀ t : String, ¬ (p ++ t = q) := by
  intro t h
  apply hne
  have hd : (p ++ t).data = q.data := congrArg String.data h
  rw [String.data_append] at hd
  rw [← hd]
  exact (List.getElem?_append_left hi).symm

theorem dropPre_append (l r : List Char) : dropPre l (l ++ r) = some r := by
  induction l with
  | nil => rfl
  | cons c cs ih => simp [dropPre, ih]

theorem decodeChars_no_pct : ∀ cs : List Char, (∀ c ∈ cs, c ≠ '%') → decodeChars cs = cs := by
  intro cs
  induction cs with
  | nil => intro _; rfl
  | cons c rest ih =>
    intro h
    have hc : c ≠ '%' := h c (by simp)
    have hrest := ih fun d hd => h d (by simp [hd])
    rw [decodeChars.eq_def]
    simp only [if_neg hc]
    rw [hrest]


/-- Characters acceptable in a path parameter: matched by `.` and untouched
by the percent-decoder. -/
def idChar (c : Char) : Bool :=
  jsDotChar c && !(c == '%')

theorem b36Char_idChar {c : Char} (h : b36Char c = true) : idChar c = true := by
  have h37 : c.toNat ≠ 37 := by
    intro heq
    simp [b36Char] at h
    omega
  simp [idChar, jsDotChar, b36Char] at *
  refine ⟨by omega, ?_⟩
  intro heq
  subst heq
  exact h37 rfl

theorem b36digit_b36Char (n : Nat) (h : n < 36) : b36Char (b36digit n) = true := by
  interval_cases n <;> decide

theorem natToB36Aux_chars :
    ∀ (fuel n : Nat) (acc : List Char), (∀ c ∈ acc, b36Char c = true) →
      ∀ c ∈ natToB36Aux fuel n acc, b36Char c = true := by
  intro fuel
  induction fuel with
  | zero => intro n acc hacc; simpa [natToB36Aux] using hacc
  | succ fuel ih =>
    intro n acc hacc
    match n with
    | 0 => simpa [natToB36Aux] using hacc
    | n + 1 =>
      rw [natToB36Aux]
      apply ih
      intro c hc
      rcases List.mem_cons.mp hc with h | h
      · subst h; exact b36digit_b36Char _ (Nat.mod_lt _ (by omega))
      · exact hacc c h

theorem natToB36_chars (n : Nat) : ∀ c ∈ (natToB36 n).data, b36Char c = true := by
  unfold natToB36
  by_cases h : n = 0
  · simp [h]; decide
  · rw [if_neg h]
    exact natToB36Aux_chars n n [] (by simp)

/-! Facts about the store layer. -/

theorem ensureSeed_idem (s : Store) : ensureSeed (ensureSeed s) = ensureSeed s := by
  unfold ensureSeed readJsonOrNull
  cases s.user <;> cases s.resumes <;>
    (cases htok : s.token with
     | none => simp
     | some t =>
       by_cases ht : t = "" <;> simp [ht])

theorem ensureSeed_resumes_stored {s : Store} {rs : List Resume}
    (h : s.resumes = .stored rs) : (ensureSeed s).resumes = .stored rs := by
  simp [ensureSeed, readJsonOrNull, h]

theorem ensureSeed_resumes_isStored (s : Store) :
    ∃ rs, (ensureSeed s).resumes = .stored rs := by
  unfold ensureSeed readJsonOrNull
  cases s.resumes <;> simp

theorem getResumes_stored {s : Store} {rs : List Resume}
    (h : s.resumes = .stored rs) : getResumes s = (rs, ensureSeed s) := by
  simp [getResumes, readJson, ensureSeed_resumes_stored h]

theorem find?_upsertList (u : Resume) (rs : List Resume) :
    (upsertList u rs).find? (fun r => r._id == u._id) = some u := by
  induction rs with
  | nil => simp [upsertList, List.find?]
  | cons r rs ih =>
    by_cases h : r._id == u._id
    · simp [upsertList, h, List.find?]
    · have h' : (r._id == u._id) = false := by simpa using h
      rw [upsertList, if_neg (by simp [h']), List.find?_cons]
      simpa [h'] using ih

/-! Lookup facts about the object-spread merge. -/

theorem lookup_mapOverride (a b : List (String × String)) (k : String) :
    (a.map (fun kv =>
        match b.lookup kv.1 with
        | some v => (kv.1, v)
        | none => kv)).lookup k
      = match a.lookup k with
        | none => none
        | some v => some ((b.lookup k).getD v) := by
  induction a with
  | nil => simp
  | cons kv a ih =>
    obtain ⟨k₀, v₀⟩ := kv
    by_cases hk : k = k₀
    · subst hk
      cases hb : b.lookup k <;>
        simp [List.lookup, hb]
    · have hk' : (k == k₀) = false := by simpa using hk
      cases hb : b.lookup k₀ <;>
        simp only [List.map_cons, List.lookup, hb, hk'] <;>
        exact ih

theorem lookup_filterNew (a b : List (String × String)) (k : String) :
    (b.filter (fun kv => (a.lookup kv.1).isNone)).lookup k
      = if (a.lookup k).isSome then none else b.lookup k := by
  induction b with
  | nil => simp
  | cons kv b ih =>
    obtain ⟨k₀, v₀⟩ := kv
    by_cases hkeep : (a.lookup k₀).isNone
    · by_cases hk : k = k₀
      · subst hk
        have : (a.lookup k).isSome = false := by
          cases h : a.lookup k <;> simp [h] at hkeep ⊢
        simp [List.filter, hkeep, List.lookup, this]
      · have hk' : (k == k₀) = false := by simpa using hk
        simp only [List.filter_cons, hkeep, if_pos, List.lookup, hk']
        simpa [hk'] using ih
    · have hkeep' : ((a.lookup k₀).isNone : Bool) = false := by simpa using hkeep
      by_cases hk : k = k₀
      · subst hk
        have hsome : (a.lookup k).isSome = true := by
          cases h : a.lookup k <;> simp [h] at hkeep' ⊢
        simp [List.filter_cons, hkeep', ih, hsome]
      · have hk' : (k == k₀) = false := by simpa using hk
        simp [List.filter_cons, hkeep', ih, List.lookup, hk']

theorem lookup_spreadMerge (a b : List (String × String)) (k : String) :
    (spreadMerge a b).lookup k = (b.lookup k).or (a.lookup k) := by
  rw [spreadMerge, List.lookup_append, lookup_mapOverride, lookup_filterNew]
  cases ha : a.lookup k <;> cases hb : b.lookup k <;> simp

/-! The stable descending sort: permutation, sortedness, stability. -/

theorem perm_insertDesc (r : Resume) (l : List Resume) :
    List.Perm (insertDesc r l) (r :: l) := by
  induction l with
  | nil => simp [insertDesc]
  | cons x xs ih =>
    rw [insertDesc]
    by_cases h : x.updatedAt ≤ r.updatedAt
    · simp [h]
    · rw [if_neg h]
      exact ((ih.cons x).trans (List.Perm.swap r x xs))

theorem perm_sortByUpdatedDesc (l : List Resume) :
    List.Perm (sortByUpdatedDesc l) l := by
  induction l with
  | nil => simp [sortByUpdatedDesc]
  | cons r rs ih =>
    rw [sortByUpdatedDesc]
    exact (perm_insertDesc r (sortByUpdatedDesc rs)).trans (ih.cons r)

theorem sorted_insertDesc (r : Resume) (l : List Resume)
    (h : l.Pairwise (fun a b => b.updatedAt ≤ a.updatedAt)) :
    (insertDesc r l).Pairwise (fun a b => b.updatedAt ≤ a.updatedAt) := by
  induction l with
  | nil => simp [insertDesc]
  | cons x xs ih =>
    rw [insertDesc]
    rcases List.pairwise_cons.mp h with ⟨hx, hxs⟩
    by_cases hc : x.updatedAt ≤ r.updatedAt
    · rw [if_pos hc]
      refine List.pairwise_cons.mpr ⟨?_, h⟩
      intro y hy
      rcases List.mem_cons.mp hy with rfl | hy
      · exact hc
      · exact le_trans (hx y hy) hc
    · rw [if_neg hc]
      refine List.pairwise_cons.mpr ⟨?_, ih hxs⟩
      intro y hy
      rcases List.mem_cons.mp ((perm_insertDesc r xs).mem_iff.mp hy) with rfl | hy
      · omega
      · exact hx y hy

theorem sorted_sortByUpdatedDesc (l : List Resume) :
    (sortByUpdatedDesc l).Pairwise (fun a b => b.updatedAt ≤ a.updatedAt) := by
  induction l with
  | nil => simp [sortByUpdatedDesc]
  | cons r rs ih => exact sorted_insertDesc r _ ih

theorem filter_insertDesc (r : Resume) (l : List Resume) (t : Nat) :
    (insertDesc r l).filter (fun x => x.updatedAt == t)
      = if r.updatedAt == t then r :: l.filter (fun x => x.updatedAt == t)
        else l.filter (fun x => x.updatedAt == t) := by
  induction l with
  | nil =>
    by_cases h : r.updatedAt = t <;> simp [insertDesc, List.filter_cons, h]
  | cons x xs ih =>
    rw [insertDesc]
    by_cases hc : x.updatedAt ≤ r.updatedAt
    · rw [if_pos hc]
      by_cases hr : r.updatedAt = t <;> simp [List.filter_cons, hr]
    · rw [if_neg hc]
      by_cases hr : r.updatedAt = t
      · have hx : (x.updatedAt == t) = false := by
          have : x.updatedAt ≠ t := by omega
          simpa using this
        simp [List.filter_cons, hx, ih, hr]
      · have hr' : (r.updatedAt == t) = false := by simpa using hr
        simp [List.filter_cons, ih, hr']

theorem filter_sortByUpdatedDesc (l : List Resume) (t : Nat) :
    (sortByUpdatedDesc l).filter (fun x => x.updatedAt == t)
      = l.filter (fun x => x.updatedAt == t) := by
  induction l with
  | nil => simp [sortByUpdatedDesc]
  | cons r rs ih =>
    rw [sortByUpdatedDesc, filter_insertDesc]
    by_cases hr : r.updatedAt = t <;> simp [List.filter_cons, hr, ih]

/-! Facts about the quoted-content extraction of the enhancement stub. -/

theorem upToLastQuote_no_quote :
    ∀ l : List Char, (∀ c ∈ l, c ≠ '"') → upToLastQuote l = none := by
  intro l
  induction l with
  | nil => intro _; rfl
  | cons c cs ih =>
    intro h
    have hc : c ≠ '"' := h c (by simp)
    rw [upToLastQuote, ih fun d hd => h d (by simp [hd])]
    simp [hc]

theorem upToLastQuote_append (l r : List Char) (hr : ∀ c ∈ r, c ≠ '"') :
    upToLastQuote (l ++ '"' :: r) = some l := by
  induction l with
  | nil =>
    rw [List.nil_append, upToLastQuote, upToLastQuote_no_quote r hr]
    simp
  | cons c cs ih =>
    rw [List.cons_append, upToLastQuote, ih]

theorem jsQuoteMatch_skip (p l : List Char) (hp : ∀ c ∈ p, c ≠ '"') :
    jsQuoteMatch (p ++ l) = jsQuoteMatch l := by
  induction p with
  | nil => rfl
  | cons c cs ih =>
    have hc : c ≠ '"' := hp c (by simp)
    rw [List.cons_append, jsQuoteMatch, if_neg hc, ih fun d hd => hp d (by simp [hd])]

theorem jsQuoteMatch_no_quote (p : List Char) (hp : ∀ c ∈ p, c ≠ '"') :
    jsQuoteMatch p = none := by
  have := jsQuoteMatch_skip p [] hp
  simpa using this

theorem jsQuoteMatch_two_quotes (p m q : List Char)
    (hp : ∀ c ∈ p, c ≠ '"') (hq : ∀ c ∈ q, c ≠ '"') :
    jsQuoteMatch (p ++ '"' :: (m ++ '"' :: q)) = some m := by
  rw [jsQuoteMatch_skip p _ hp, jsQuoteMatch, if_pos rfl, upToLastQuote_append m q hq]

/-! Route-matching facts. -/

theorem matchCapture_append (lit id : String) (hne : id.data ≠ [])
    (hall : ∀ c ∈ id.data, jsDotChar c = true) :
    matchCapture lit (lit ++ id) = some id := by
  rw [matchCapture, String.data_append, dropPre_append]
  show (if id.data ≠ [] ∧ id.data.all jsDotChar = true then some (String.mk id.data)
    else none) = some id
  rw [if_pos ⟨hne, List.all_eq_true.mpr hall⟩]

theorem normalizeUrl_slash (url : String) (h : url.data.head? = some '/') :
    normalizeUrl url = url := by
  rw [normalizeUrl]
  have hne : ¬ url = "" := by
    intro he
    subst he
    simp at h
  rw [if_neg hne, if_pos h]

theorem normalizeUrl_append (lit id : String) (h : lit.data.head? = some '/') :
    normalizeUrl (lit ++ id) = lit ++ id := by
  apply normalizeUrl_slash
  rw [String.data_append]
  cases hd : lit.data with
  | nil => rw [hd] at h; simp at h
  | cons c cs =>
    rw [hd] at h
    simp at h
    simp [h]

theorem matchRoute_getOne (id : String) (hne : id.data ≠ [])
    (hall : ∀ c ∈ id.data, jsDotChar c = true) :
    matchRoute "GET" ("/api/resumes/get/" ++ id) = some (Route.getOne id) := by
  have hcap : matchCapture "/api/resumes/get/" ("/api/resumes/get/" ++ id) = some id :=
    matchCapture_append _ _ hne hall
  have h1 : ¬ (("GET" : String) = "GET" ∧ "/api/resumes/get/" ++ id = "/api/users/data") := by
    rintro ⟨-, h⟩
    exact append_lit_ne "/api/resumes/get/" "/api/users/data" 5 (by decide) (by decide) id h
  have h2 : ¬ (("GET" : String) = "GET" ∧ "/api/resumes/get/" ++ id = "/api/users/resumes") := by
    rintro ⟨-, h⟩
    exact append_lit_ne "/api/resumes/get/" "/api/users/resumes" 5 (by decide) (by decide) id h
  have hm : ¬ (("GET" : String) = "POST") := by decide
  unfold matchRoute
  rw [if_neg h1, if_neg h2, if_neg (fun h => hm h.1), if_neg (fun h => hm h.1),
    if_pos ⟨rfl, by rw [hcap]; rfl⟩, hcap]
  rfl

theorem matchRoute_eq_none {m p : String} (h : routeMatches m p = false) :
    matchRoute m p = none := by
  have n1 : ¬ (m = "GET" ∧ p = "/api/users/data") := by
    rintro ⟨hm, hp⟩; rw [routeMatches, hm, hp] at h; simp at h
  have n2 : ¬ (m = "GET" ∧ p = "/api/users/resumes") := by
    rintro ⟨hm, hp⟩; rw [routeMatches, hm, hp] at h; simp at h
  have n3 : ¬ (m = "POST" ∧ (p = "/api/users/login" ∨ p = "/api/users/register")) := by
    rintro ⟨hm, hp | hp⟩ <;> rw [routeMatches, hm, hp] at h <;> simp at h
  have n4 : ¬ (m = "POST" ∧ p = "/api/resumes/create") := by
    rintro ⟨hm, hp⟩; rw [routeMatches, hm, hp] at h; simp at h
  have n5 : ¬ (m = "GET" ∧ (matchCapture "/api/resumes/get/" p).isSome = true) := by
    rintro ⟨hm, hc⟩; rw [routeMatches, hm, hc] at h; simp at h
  have n6 : ¬ (m = "GET" ∧ (matchCapture "/api/resumes/public/" p).isSome = true) := by
    rintro ⟨hm, hc⟩; rw [routeMatches, hm, hc] at h; simp at h
  have n7 : ¬ (m = "PUT" ∧ p = "/api/resumes/update") := by
    rintro ⟨hm, hp⟩; rw [routeMatches, hm, hp] at h; simp at h
  have n8 : ¬ (m = "DELETE" ∧ (matchCapture "/api/resumes/delete/" p).isSome = true) := by
    rintro ⟨hm, hc⟩; rw [routeMatches, hm, hc] at h; simp at h
  have n9 : ¬ (m = "POST" ∧ p = "/api/ai/enhance-pro-sum") := by
    rintro ⟨hm, hp⟩; rw [routeMatches, hm, hp] at h; simp at h
  have n10 : ¬ (m = "POST" ∧ p = "/api/ai/enhance-job-desc") := by
    rintro ⟨hm, hp⟩; rw [routeMatches, hm, hp] at h; simp at h
  have n11 : ¬ (m = "POST" ∧ p = "/api/ai/upload-resume") := by
    rintro ⟨hm, hp⟩; rw [routeMatches, hm, hp] at h; simp at h
  unfold matchRoute
  rw [if_neg n1, if_neg n2, if_neg n3, if_neg n4, if_neg n5, if_neg n6, if_neg n7,
    if_neg n8, if_neg n9, if_neg n10, if_neg n11]

theorem handleRequest_update_eq (body : ReqBody) (now : Nat) (rand : String) (s : Store) :
    handleRequest "PUT" "/api/resumes/update" body now rand s
      = updateHandler (bodyUpdate body) now (ensureSeed s) := rfl

theorem handleRequest_usersResumes_eq (body : ReqBody) (now : Nat) (rand : String) (s : Store) :
    handleRequest "GET" "/api/users/resumes" body now rand s
      = runRoute .usersResumes body now rand (ensureSeed s) := rfl

theorem handleRequest_create_eq (body : ReqBody) (now : Nat) (rand : String) (s : Store) :
    handleRequest "POST" "/api/resumes/create" body now rand s
      = runRoute .create body now rand (ensureSeed s) := rfl

theorem updateHandler_noRid (u : UpdateBody) (now : Nat) (s : Store)
    (h : ridOf u = none) :
    updateHandler u now s = (.error (axiosLikeError "resumeId is required" 400), s) := by
  simp [updateHandler, h]

theorem updateHandler_blankRid (u : UpdateBody) (now : Nat) (s : Store)
    (h : ridOf u = some "") :
    updateHandler u now s = (.error (axiosLikeError "resumeId is required" 400), s) := by
  simp [updateHandler, h]

theorem updateHandler_notFound (u : UpdateBody) (now : Nat) (s : Store) (rid : String)
    (h : ridOf u = some rid) (hrid : rid ≠ "")
    (hf : (getResumes s).1.find? (fun r => r._id == rid) = none) :
    updateHandler u now s = (.error (axiosLikeError "Resume not found" 404), ensureSeed s) := by
  have : findResume rid s = (none, ensureSeed s) := by
    simp [findResume, getResumes] at hf ⊢
    exact hf
  simp [updateHandler, h, hrid, this]

theorem updateHandler_found (u : UpdateBody) (now : Nat) (s : Store) (rid : String)
    (existing : Resume)
    (h : ridOf u = some rid) (hrid : rid ≠ "")
    (hf : (getResumes s).1.find? (fun r => r._id == rid) = some existing) :
    updateHandler u now s =
      (.ok (.resumeUpdated (patchImage (applyUpdate existing (rdOf u) now) (imgOf u))
          "Resume updated"),
        upsertResume (patchImage (applyUpdate existing (rdOf u) now) (imgOf u))
          (ensureSeed s)) := by
  have : findResume rid s = (some existing, ensureSeed s) := by
    simp [findResume, getResumes] at hf ⊢
    exact hf
  simp [updateHandler, h, hrid, this]

theorem upsertResume_stored {s : Store} {rs : List Resume}
    (h : s.resumes = .stored rs) (u : Resume) :
    upsertResume u s = { ensureSeed s with resumes := .stored (upsertList u rs) } := by
  simp [upsertResume, getResumes_stored h, setResumes]

theorem ensureSeed_resumes_read (s : Store) :
    (ensureSeed s).resumes = .stored (readJson (ensureSeed s).resumes []) := by
  cases h : s.resumes <;> simp [ensureSeed, readJsonOrNull, readJson, h]

/-! The claims. -/

/-- C9: for every cell state and fallback value, the storage read operation
`readJson` is total — it returns the fallback when the key is absent, unset
(empty raw string) or holds invalid JSON, and the stored value otherwise; in
no case does a failure propagate to the caller. -/
theorem readJson_total_never_fails {α : Type} (fb v : α) :
    readJson (Cell.absent (α := α)) fb = fb
    ∧ readJson (Cell.blank (α := α)) fb = fb
    ∧ readJson (Cell.corrupt (α := α)) fb = fb
    ∧ readJson (Cell.stored v) fb = v
    ∧ ∀ c : Cell α, readJson c fb = fb ∨ ∃ w, c = Cell.stored w ∧ readJson c fb = w := by
  refine ⟨rfl, rfl, rfl, rfl, ?_⟩
  intro c
  cases c with
  | stored w => exact Or.inr ⟨w, rfl, rfl⟩
  | absent => exact Or.inl rfl
  | blank => exact Or.inl rfl
  | corrupt => exact Or.inl rfl

/-- C8: `ensureSeed` writes the default user, the default token and the empty
collection exactly for the cells whose read yields nothing (absent key,
empty raw string, or unparsable content — the code's falsy-read check), it
leaves populated cells alone, and iterating it any number of times after the
first call changes nothing. -/
theorem ensureSeed_seeding_idempotent :
    defaultUser = { _id := "local_user", name := "Joe Doe", email := "joe@example.com" }
    ∧ (∀ s u, s.user = Cell.stored u → (ensureSeed s).user = Cell.stored u)
    ∧ (∀ s, s.user = Cell.absent ∨ s.user = Cell.blank ∨ s.user = Cell.corrupt →
        (ensureSeed s).user = Cell.stored defaultUser)
    ∧ (∀ s t, s.token = some t → t ≠ "" → (ensureSeed s).token = some t)
    ∧ (∀ s, s.token = none ∨ s.token = some "" → (ensureSeed s).token = some "local_token")
    ∧ (∀ s rs, s.resumes = Cell.stored rs → (ensureSeed s).resumes = Cell.stored rs)
    ∧ (∀ s, s.resumes = Cell.absent ∨ s.resumes = Cell.blank ∨ s.resumes = Cell.corrupt →
        (ensureSeed s).resumes = Cell.stored [])
    ∧ (∀ (s : Store) (n : Nat), ensureSeed^[n + 1] s = ensureSeed s) := by
  refine ⟨rfl, ?_, ?_, ?_, ?_, ?_, ?_, ?_⟩
  · intro s u h; simp [ensureSeed, readJsonOrNull, h]
  · rintro s (h | h | h) <;> simp [ensureSeed, readJsonOrNull, h]
  · intro s t h ht; simp [ensureSeed, h, ht]
  · rintro s (h | h) <;> simp [ensureSeed, h]
  · intro s rs h; simp [ensureSeed, readJsonOrNull, h]
  · rintro s (h | h | h) <;> simp [ensureSeed, readJsonOrNull, h]
  · intro s n
    induction n with
    | zero => simp
    | succ n ih =>
      rw [Function.iterate_succ_apply', ih, ensureSeed_idem]

/-- Witness for C8 at a concrete store: an empty store is seeded with the
defaults, and a second (and n-th) invocation changes nothing. -/
theorem ensureSeed_seeding_idempotent_witness :
    (ensureSeed ⟨Cell.absent, none, Cell.absent⟩).user = Cell.stored defaultUser
    ∧ (ensureSeed ⟨Cell.absent, none, Cell.absent⟩).token = some "local_token"
    ∧ (ensureSeed ⟨Cell.absent, none, Cell.absent⟩).resumes = Cell.stored []
    ∧ ensureSeed^[3] ⟨Cell.absent, none, Cell.absent⟩
        = ensureSeed ⟨Cell.absent, none, Cell.absent⟩ :=
  ⟨(ensureSeed_seeding_idempotent.2.2.1 ⟨Cell.absent, none, Cell.absent⟩ (Or.inl rfl)),
   (ensureSeed_seeding_idempotent.2.2.2.2.1 ⟨Cell.absent, none, Cell.absent⟩ (Or.inl rfl)),
   (ensureSeed_seeding_idempotent.2.2.2.2.2.2.1 ⟨Cell.absent, none, Cell.absent⟩ (Or.inl rfl)),
   (ensureSeed_seeding_idempotent.2.2.2.2.2.2.2 ⟨Cell.absent, none, Cell.absent⟩ 2)⟩

/-- C6: a (method, path) pair accepted by none of the routes of the table
rejects with the structured envelope, status 404, and a message naming both
the method and the (normalized) path; and a structured failure built without
an explicit status carries the default status 400. -/
theorem unmatched_route_404 (method url : String) (body : ReqBody) (now : Nat)
    (rand : String) (s : Store)
    (h : routeMatches method (normalizeUrl url) = false) :
    (handleRequest method url body now rand s).1
      = .error
          { message := "No local route for " ++ method ++ " " ++ normalizeUrl url
            response :=
              { status := 404
                data := { message := "No local route for " ++ method ++ " " ++ normalizeUrl url } } }
    ∧ ∀ msg, axiosLikeError msg
        = { message := msg, response := { status := 400, data := { message := msg } } } := by
  constructor
  · simp only [handleRequest]
    rw [matchRoute_eq_none h]
    rfl
  · intro msg; rfl

/-- Witness for C6: `GET /api/nonexistent` on an empty store rejects with the
404 envelope naming the method and the path. -/
theorem unmatched_route_404_witness :
    routeMatches "GET" (normalizeUrl "/api/nonexistent") = false
    ∧ (handleRequest "GET" "/api/nonexistent" ReqBody.noBody 0 ""
          ⟨Cell.absent, none, Cell.absent⟩).1
        = .error
            { message := "No local route for GET /api/nonexistent"
              response :=
                { status := 404
                  data := { message := "No local route for GET /api/nonexistent" } } } := by
  refine ⟨by decide, ?_⟩
  have := (unmatched_route_404 "GET" "/api/nonexistent" ReqBody.noBody 0 ""
    ⟨Cell.absent, none, Cell.absent⟩ (by decide)).1
  simpa using this

/-- C5 counterexample: on a prompt with two quoted segments the stub does not
extract the *first* double-quoted substring (`ab`), as the claim and spec
state; the greedy regex takes everything between the first and the last
quote. -/
theorem enhanceText_not_first_quoted :
    enhanceTextSpecFirst "say \"ab\" and \"cd\""
      = "Results-driven professional with a strong focus on impact. ab"
    ∧ enhanceText (some "say \"ab\" and \"cd\"")
      = "Results-driven professional with a strong focus on impact. ab\" and \"cd"
    ∧ enhanceText (some "say \"ab\" and \"cd\"")
      ≠ enhanceTextSpecFirst "say \"ab\" and \"cd\"" :=
  ⟨by decide, by decide, by decide⟩

/-- C5 (amended): `enhanceText` extracts the content between the first and
the *last* double quote when the prompt has two or more quotes, uses the
whole prompt otherwise, then trims, collapses whitespace and prepends the
boilerplate exactly when the result is non-empty and shorter than 80 UTF-16
units (`enhanceStage`); empty or missing input yields `""`, and the spec's
single-quoted-pair example evaluates as stated. -/
theorem enhanceText_amended :
    enhanceText none = ""
    ∧ enhanceText (some "") = ""
    ∧ (∀ p m q : String, (∀ c ∈ p.data, c ≠ '"') → (∀ c ∈ q.data, c ≠ '"') →
        enhanceText (some (p ++ "\"" ++ m ++ "\"" ++ q)) = enhanceStage m.data)
    ∧ (∀ p : String, (∀ c ∈ p.data, c ≠ '"') → enhanceText (some p) = enhanceStage p.data)
    ∧ (∀ p q : String, (∀ c ∈ p.data, c ≠ '"') → (∀ c ∈ q.data, c ≠ '"') →
        enhanceText (some (p ++ "\"" ++ q)) = enhanceStage (p ++ "\"" ++ q).data)
    ∧ enhanceText (some "write about \"built 3 apps\"")
        = "Results-driven professional with a strong focus on impact. built 3 apps" := by
  refine ⟨rfl, rfl, ?_, ?_, ?_, by decide⟩
  · intro p m q hp hq
    have hdata : (p ++ "\"" ++ m ++ "\"" ++ q).data
        = p.data ++ '"' :: (m.data ++ '"' :: q.data) := by
      simp only [String.data_append]
      simp [List.append_assoc]
    rw [enhanceText, hdata, jsQuoteMatch_two_quotes p.data m.data q.data hp hq]
  · intro p hp
    rw [enhanceText, jsQuoteMatch_no_quote p.data hp]
  · intro p q hp hq
    have hdata : (p ++ "\"" ++ q).data = p.data ++ '"' :: q.data := by
      simp only [String.data_append]
      simp [List.append_assoc]
    rw [enhanceText, hdata, jsQuoteMatch_skip p.data _ hp, jsQuoteMatch, if_pos rfl,
      upToLastQuote_no_quote q.data hq, ← hdata]

/-- Witness for the amended C5 on concrete decomposed prompts. -/
theorem enhanceText_amended_witness :
    enhanceText (some ("enhance my text " ++ "\"" ++ "great work" ++ "\"" ++ " thanks"))
      = enhanceStage "great work".data
    ∧ enhanceText (some "no quotes here") = enhanceStage "no quotes here".data :=
  ⟨enhanceText_amended.2.2.1 "enhance my text " "great work" " thanks"
      (by decide) (by decide),
   enhanceText_amended.2.2.2.1 "no quotes here" (by decide)⟩

theorem getResumes_ensureSeed (s : Store) :
    getResumes (ensureSeed s) = ((getResumes s).1, ensureSeed s) := by
  simp [getResumes, ensureSeed_idem]

/-- C1: a partial update through the update route succeeds with the merged
resume; every top-level field absent from `resumeData` keeps its prior value
(shallow merge), `personal_info` is merged one level deep (`resumeData` keys
win, remaining existing keys survive, new keys are added), and `updatedAt`
becomes the request instant — strictly later than the previous `updatedAt`
whenever the clock has advanced past it. -/
theorem update_merge_shallow (s : Store) (rid : String) (rd : ResumeData) (now : Nat)
    (rand : String) (existing : Resume)
    (hrid : rid ≠ "")
    (hfind : (getResumes s).1.find? (fun r => r._id == rid) = some existing)
    (htime : existing.updatedAt < now) :
    (handleRequest "PUT" "/api/resumes/update"
        (ReqBody.update (UpdateBody.plain (some rid) (some rd))) now rand s).1
      = .ok (.resumeUpdated (applyUpdate existing rd now) "Resume updated")
    ∧ (rd.title = none → (applyUpdate existing rd now).title = existing.title)
    ∧ (rd.professional_summary = none →
        (applyUpdate existing rd now).professional_summary = existing.professional_summary)
    ∧ (rd.experience = none → (applyUpdate existing rd now).experience = existing.experience)
    ∧ (rd.education = none → (applyUpdate existing rd now).education = existing.education)
    ∧ (rd.project = none → (applyUpdate existing rd now).project = existing.project)
    ∧ (rd.skills = none → (applyUpdate existing rd now).skills = existing.skills)
    ∧ (rd.template = none → (applyUpdate existing rd now).template = existing.template)
    ∧ (rd.accent_color = none →
        (applyUpdate existing rd now).accent_color = existing.accent_color)
    ∧ (rd.public = none → (applyUpdate existing rd now).public = existing.public)
    ∧ (rd.createdAt = none → (applyUpdate existing rd now).createdAt = existing.createdAt)
    ∧ (rd._id = none → (applyUpdate existing rd now)._id = existing._id)
    ∧ (∀ k, ((applyUpdate existing rd now).personal_info).lookup k
        = ((rd.personal_info.getD []).lookup k).or (existing.personal_info.lookup k))
    ∧ existing.updatedAt < (applyUpdate existing rd now).updatedAt := by
  have hfind' : (getResumes (ensureSeed s)).1.find? (fun r => r._id == rid) = some existing := by
    rw [getResumes_ensureSeed]
    exact hfind
  have hmain := updateHandler_found (UpdateBody.plain (some rid) (some rd)) now
    (ensureSeed s) rid existing rfl hrid hfind'
  refine ⟨?_, ?_, ?_, ?_, ?_, ?_, ?_, ?_, ?_, ?_, ?_, ?_, ?_, ?_⟩
  · rw [handleRequest_update_eq]
    rw [show bodyUpdate (ReqBody.update (UpdateBody.plain (some rid) (some rd)))
      = UpdateBody.plain (some rid) (some rd) from rfl]
    rw [hmain]
    rfl
  · intro h; simp [applyUpdate, h]
  · intro h; simp [applyUpdate, h]
  · intro h; simp [applyUpdate, h]
  · intro h; simp [applyUpdate, h]
  · intro h; simp [applyUpdate, h]
  · intro h; simp [applyUpdate, h]
  · intro h; simp [applyUpdate, h]
  · intro h; simp [applyUpdate, h]
  · intro h; simp [applyUpdate, h]
  · intro h; simp [applyUpdate, h]
  · intro h; simp [applyUpdate, h]
  · intro k
    simp only [applyUpdate]
    exact lookup_spreadMerge existing.personal_info (rd.personal_info.getD []) k
  · simpa [applyUpdate] using htime

/-- Witness for C1: the spec's own example — `personal_info = {city: "X"}`
updated with `personal_info = {country: "Y"}` yields both keys and a strictly
later `updatedAt`. -/
theorem update_merge_shallow_witness :
    (handleRequest "PUT" "/api/resumes/update"
        (ReqBody.update (UpdateBody.plain (some "resume_3_aa")
          (some { emptyResumeData with personal_info := some [("country", "Y")] }))) 5 "zz"
        ⟨Cell.stored defaultUser, some "local_token",
          Cell.stored [{ freshResume "Old" 3 "aa" with personal_info := [("city", "X")] }]⟩).1
      = .ok (.resumeUpdated
          (applyUpdate { freshResume "Old" 3 "aa" with personal_info := [("city", "X")] }
            { emptyResumeData with personal_info := some [("country", "Y")] } 5)
          "Resume updated")
    ∧ (applyUpdate { freshResume "Old" 3 "aa" with personal_info := [("city", "X")] }
        { emptyResumeData with personal_info := some [("country", "Y")] } 5).personal_info
        = [("city", "X"), ("country", "Y")]
    ∧ ({ freshResume "Old" 3 "aa" with
          personal_info := [("city", "X")] } : Resume).updatedAt
      < (applyUpdate { freshResume "Old" 3 "aa" with personal_info := [("city", "X")] }
          { emptyResumeData with personal_info := some [("country", "Y")] } 5).updatedAt := by
  have h := update_merge_shallow
    ⟨Cell.stored defaultUser, some "local_token",
      Cell.stored [{ freshResume "Old" 3 "aa" with personal_info := [("city", "X")] }]⟩
    "resume_3_aa"
    { emptyResumeData with personal_info := some [("country", "Y")] }
    5 "zz"
    { freshResume "Old" 3 "aa" with personal_info := [("city", "X")] }
    (by decide) (by decide) (by decide)
  exact ⟨h.1, by decide,
    h.2.2.2.2.2.2.2.2.2.2.2.2.2⟩

/-- C7: the update route fails with status 400 exactly when the body carries
no usable `resumeId` (missing, or the falsy empty string); with a `resumeId`
that matches no stored resume it fails with the 404 "Resume not found"
failure; and with a matching `resumeId` it succeeds and returns the merged
resume. -/
theorem update_validation (s : Store) (u : UpdateBody) (now : Nat) (rand : String) :
    ((∃ e, (handleRequest "PUT" "/api/resumes/update" (ReqBody.update u) now rand s).1
        = .error e ∧ e.response.status = 400)
      ↔ (ridOf u = none ∨ ridOf u = some ""))
    ∧ (∀ rid, ridOf u = some rid → rid ≠ "" →
        (getResumes s).1.find? (fun r => r._id == rid) = none →
        (handleRequest "PUT" "/api/resumes/update" (ReqBody.update u) now rand s).1
          = .error (axiosLikeError "Resume not found" 404))
    ∧ (∀ rid existing, ridOf u = some rid → rid ≠ "" →
        (getResumes s).1.find? (fun r => r._id == rid) = some existing →
        (handleRequest "PUT" "/api/resumes/update" (ReqBody.update u) now rand s).1
          = .ok (.resumeUpdated (patchImage (applyUpdate existing (rdOf u) now) (imgOf u))
              "Resume updated")) := by
  have htop : (handleRequest "PUT" "/api/resumes/update" (ReqBody.update u) now rand s)
      = updateHandler u now (ensureSeed s) := handleRequest_update_eq (ReqBody.update u) now rand s
  have hseed : ∀ rid, (getResumes (ensureSeed s)).1.find? (fun r => r._id == rid)
      = (getResumes s).1.find? (fun r => r._id == rid) := by
    intro rid; rw [getResumes_ensureSeed]
  refine ⟨⟨?_, ?_⟩, ?_, ?_⟩
  · rintro ⟨e, he, hst⟩
    rw [htop] at he
    match hr : ridOf u with
    | none => exact Or.inl rfl
    | some rid =>
      by_cases hblank : rid = ""
      · exact Or.inr (by rw [hblank])
      · exfalso
        cases hf : (getResumes s).1.find? (fun r => r._id == rid) with
        | none =>
          rw [updateHandler_notFound u now (ensureSeed s) rid hr hblank
            ((hseed rid).trans hf)] at he
          cases he
          simp [axiosLikeError] at hst
        | some existing =>
          rw [updateHandler_found u now (ensureSeed s) rid existing hr hblank
            ((hseed rid).trans hf)] at he
          cases he
  · rintro (hr | hr)
    · refine ⟨axiosLikeError "resumeId is required" 400, ?_, rfl⟩
      rw [htop, updateHandler_noRid u now (ensureSeed s) hr]
    · refine ⟨axiosLikeError "resumeId is required" 400, ?_, rfl⟩
      rw [htop, updateHandler_blankRid u now (ensureSeed s) hr]
  · intro rid hr hrid hf
    rw [htop, updateHandler_notFound u now (ensureSeed s) rid hr hrid ((hseed rid).trans hf)]
  · intro rid existing hr hrid hf
    rw [htop, updateHandler_found u now (ensureSeed s) rid existing hr hrid
      ((hseed rid).trans hf)]

/-- Witness for C7: a stored resume is found by its id and the update
succeeds with the merged resume. -/
theorem update_validation_witness :
    (handleRequest "PUT" "/api/resumes/update"
        (ReqBody.update (UpdateBody.plain (some "resume_0_aa") none)) 5 "zz"
        ⟨Cell.absent, none, Cell.stored [freshResume "T" 0 "aa"]⟩).1
      = .ok (.resumeUpdated
          (patchImage (applyUpdate (freshResume "T" 0 "aa")
            (rdOf (UpdateBody.plain (some "resume_0_aa") none)) 5)
            (imgOf (UpdateBody.plain (some "resume_0_aa") none)))
          "Resume updated") :=
  (update_validation ⟨Cell.absent, none, Cell.stored [freshResume "T" 0 "aa"]⟩
    (UpdateBody.plain (some "resume_0_aa") none) 5 "zz").2.2 "resume_0_aa"
    (freshResume "T" 0 "aa") rfl (by decide) (by decide)

theorem patchImage_id (r : Resume) (i : Option (Option String)) :
    (patchImage r i)._id = r._id := by
  match i with
  | some (some url) => rfl
  | some none => rfl
  | none => rfl

/-- C3 counterexample: a `resumeData` body that carries an `_id` property
overwrites the id of the merged resume — the update route returns a resume
whose id differs from the id it was addressed by, and the updated copy is
appended under the new id while the original entry stays in place. -/
theorem update_can_change_id :
    (handleRequest "PUT" "/api/resumes/update"
        (ReqBody.update (UpdateBody.plain (some "resume_0_aa")
          (some { emptyResumeData with _id := some "x" }))) 5 "zz"
        ⟨Cell.absent, none, Cell.stored [freshResume "T" 0 "aa"]⟩).1
      = .ok (.resumeUpdated { freshResume "T" 0 "aa" with _id := "x", updatedAt := 5 }
          "Resume updated")
    ∧ ({ freshResume "T" 0 "aa" with _id := "x", updatedAt := 5 } : Resume)._id
        ≠ (freshResume "T" 0 "aa")._id
    ∧ (handleRequest "PUT" "/api/resumes/update"
        (ReqBody.update (UpdateBody.plain (some "resume_0_aa")
          (some { emptyResumeData with _id := some "x" }))) 5 "zz"
        ⟨Cell.absent, none, Cell.stored [freshResume "T" 0 "aa"]⟩).2.resumes
      = Cell.stored [freshResume "T" 0 "aa",
          { freshResume "T" 0 "aa" with _id := "x", updatedAt := 5 }] := by
  refine ⟨by decide, by decide, by decide⟩

/-- C3 (amended): an update whose `resumeData` does not carry an `_id`
property produces a resume with the same id as the resume it addressed (with
either body shape, image part or not); the id can only change when the body
itself supplies one. -/
theorem update_preserves_id (s : Store) (u : UpdateBody) (now : Nat) (rand : String)
    (rid : String) (existing : Resume)
    (hid : (rdOf u)._id = none)
    (hr : ridOf u = some rid) (hrid : rid ≠ "")
    (hfind : (getResumes s).1.find? (fun r => r._id == rid) = some existing) :
    ∃ next, (handleRequest "PUT" "/api/resumes/update" (ReqBody.update u) now rand s).1
        = .ok (.resumeUpdated next "Resume updated")
      ∧ next._id = existing._id := by
  have hfind' : (getResumes (ensureSeed s)).1.find? (fun r => r._id == rid) = some existing := by
    rw [getResumes_ensureSeed]; exact hfind
  have hmain := updateHandler_found u now (ensureSeed s) rid existing hr hrid hfind'
  refine ⟨patchImage (applyUpdate existing (rdOf u) now) (imgOf u), ?_, ?_⟩
  · rw [handleRequest_update_eq, show bodyUpdate (ReqBody.update u) = u from rfl, hmain]
  · rw [patchImage_id]
    simp [applyUpdate, hid]

/-- Witness for the amended C3: a form-shaped update with an image part and
no `_id` in its `resumeData` keeps the resume's id. -/
theorem update_preserves_id_witness :
    ∃ next, (handleRequest "PUT" "/api/resumes/update"
        (ReqBody.update (UpdateBody.form (some "resume_0_bb") none (some (some "data:img"))))
        7 "q" ⟨Cell.absent, none, Cell.stored [freshResume "T" 0 "bb"]⟩).1
        = .ok (.resumeUpdated next "Resume updated")
      ∧ next._id = "resume_0_bb" := by
  obtain ⟨next, h1, h2⟩ := update_preserves_id
    ⟨Cell.absent, none, Cell.stored [freshResume "T" 0 "bb"]⟩
    (UpdateBody.form (some "resume_0_bb") none (some (some "data:img")))
    7 "q" "resume_0_bb" (freshResume "T" 0 "bb") rfl rfl (by decide) (by decide)
  exact ⟨next, h1, h2.trans (by decide)⟩

theorem readJson_ensureSeed_resumes (s : Store) :
    readJson (ensureSeed s).resumes ([] : List Resume) = readJson s.resumes [] := by
  cases h : s.resumes <;> simp [ensureSeed, readJsonOrNull, readJson, h]

/-- C10 counterexample: a rejected update is not write-free — `ensureSeed`
runs before the validation, so calling the update route with no `resumeId`
on a store whose resume key is absent rejects with 400 and still changes the
persisted resume cell from absent to the stored empty collection. -/
theorem update_reject_still_seeds :
    (handleRequest "PUT" "/api/resumes/update" (ReqBody.update (UpdateBody.plain none none))
        5 "zz" ⟨Cell.absent, none, Cell.absent⟩).1
      = .error (axiosLikeError "resumeId is required" 400)
    ∧ (handleRequest "PUT" "/api/resumes/update" (ReqBody.update (UpdateBody.plain none none))
        5 "zz" ⟨Cell.absent, none, Cell.absent⟩).2.resumes
      = Cell.stored []
    ∧ (handleRequest "PUT" "/api/resumes/update" (ReqBody.update (UpdateBody.plain none none))
        5 "zz" ⟨Cell.absent, none, Cell.absent⟩).2.resumes
      ≠ (⟨Cell.absent, none, Cell.absent⟩ : Store).resumes := by
  refine ⟨by decide, by decide, by decide⟩

/-- C10 (amended): whenever the update route rejects (missing `resumeId`, or
an unknown id), the store it leaves behind is exactly the seeded store: the
resume collection as read is unchanged, the cell itself is untouched
whenever a collection was already stored, and the only possible write before
the validation is `ensureSeed`'s seeding of unpopulated cells. -/
theorem update_reject_atomic (s : Store) (u : UpdateBody) (now : Nat) (rand : String)
    (e : ApiError)
    (he : (handleRequest "PUT" "/api/resumes/update" (ReqBody.update u) now rand s).1
      = .error e) :
    (handleRequest "PUT" "/api/resumes/update" (ReqBody.update u) now rand s).2
      = ensureSeed s
    ∧ readJson (handleRequest "PUT" "/api/resumes/update"
        (ReqBody.update u) now rand s).2.resumes []
      = readJson s.resumes []
    ∧ (∀ rs, s.resumes = Cell.stored rs →
        (handleRequest "PUT" "/api/resumes/update" (ReqBody.update u) now rand s).2.resumes
          = Cell.stored rs) := by
  have htop : (handleRequest "PUT" "/api/resumes/update" (ReqBody.update u) now rand s)
      = updateHandler u now (ensureSeed s) := handleRequest_update_eq (ReqBody.update u) now rand s
  have hsnd : (handleRequest "PUT" "/api/resumes/update" (ReqBody.update u) now rand s).2
      = ensureSeed s := by
    rw [htop] at he ⊢
    match hr : ridOf u with
    | none => rw [updateHandler_noRid u now (ensureSeed s) hr]
    | some rid =>
      by_cases hblank : rid = ""
      · rw [hblank] at hr
        rw [updateHandler_blankRid u now (ensureSeed s) hr]
      · cases hf : (getResumes (ensureSeed s)).1.find? (fun r => r._id == rid) with
        | none =>
          rw [updateHandler_notFound u now (ensureSeed s) rid hr hblank hf, ensureSeed_idem]
        | some existing =>
          rw [updateHandler_found u now (ensureSeed s) rid existing hr hblank hf] at he
          cases he
  refine ⟨hsnd, ?_, ?_⟩
  · rw [hsnd, readJson_ensureSeed_resumes]
  · intro rs hrs
    rw [hsnd, ensureSeed_resumes_stored hrs]

/-- Witness for the amended C10: a 404-rejected update on a populated store
leaves the stored collection cell exactly as it was. -/
theorem update_reject_atomic_witness :
    (handleRequest "PUT" "/api/resumes/update"
        (ReqBody.update (UpdateBody.plain (some "nope") none)) 5 "zz"
        ⟨Cell.stored defaultUser, some "local_token",
          Cell.stored [freshResume "T" 0 "cc"]⟩).2.resumes
      = Cell.stored [freshResume "T" 0 "cc"] :=
  (update_reject_atomic
    ⟨Cell.stored defaultUser, some "local_token", Cell.stored [freshResume "T" 0 "cc"]⟩
    (UpdateBody.plain (some "nope") none) 5 "zz"
    (axiosLikeError "Resume not found" 404) (by decide)).2.2
    [freshResume "T" 0 "cc"] rfl

theorem b36Char_props {c : Char} (h : b36Char c = true) : jsDotChar c = true ∧ c ≠ '%' := by
  have hi := b36Char_idChar h
  simp [idChar] at hi
  exact ⟨hi.1, by simpa using hi.2⟩

theorem makeId_chars (now : Nat) (rand : String)
    (hrand : ∀ c ∈ rand.data, b36Char c = true) :
    ∀ c ∈ (makeId "resume" now rand).data, jsDotChar c = true ∧ c ≠ '%' := by
  intro c hc
  simp only [makeId, String.data_append, List.mem_append] at hc
  rcases hc with (((hc | hc) | hc) | hc) | hc
  · fin_cases hc <;> exact ⟨by decide, by decide⟩
  · fin_cases hc
    exact ⟨by decide, by decide⟩
  · exact b36Char_props (natToB36_chars now c hc)
  · fin_cases hc
    exact ⟨by decide, by decide⟩
  · exact b36Char_props (hrand c hc)

theorem makeId_ne_nil (now : Nat) (rand : String) :
    (makeId "resume" now rand).data ≠ [] := by
  simp [makeId, String.data_append]

theorem decode_makeId (now : Nat) (rand : String)
    (hrand : ∀ c ∈ rand.data, b36Char c = true) :
    decodeURIComponent (makeId "resume" now rand) = makeId "resume" now rand := by
  rw [decodeURIComponent,
    decodeChars_no_pct _ (fun c hc => (makeId_chars now rand hrand c hc).2)]

theorem handleRequest_getOne (id : String) (hne : id.data ≠ [])
    (hall : ∀ c ∈ id.data, jsDotChar c = true)
    (body : ReqBody) (now : Nat) (rand : String) (s : Store) :
    handleRequest "GET" ("/api/resumes/get/" ++ id) body now rand s
      = runRoute (.getOne id) body now rand (ensureSeed s) := by
  simp only [handleRequest]
  rw [normalizeUrl_append "/api/resumes/get/" id rfl, matchRoute_getOne id hne hall]

theorem runRoute_getOne_found (raw : String) (body : ReqBody) (now : Nat) (rand : String)
    (s : Store) (r : Resume)
    (hf : (getResumes s).1.find? (fun x => x._id == decodeURIComponent raw) = some r) :
    runRoute (.getOne raw) body now rand s = (.ok (.resumeGot r), ensureSeed s) := by
  have : findResume (decodeURIComponent raw) s = (some r, ensureSeed s) := by
    simp [findResume, getResumes] at hf ⊢
    exact hf
  simp [runRoute, this]

/-- C2: creating a resume titled "My CV" then fetching it through the
get-by-id route with the returned id yields the same resume, whose `title`
is "My CV", whose `public` flag is false, and whose `createdAt` equals its
`updatedAt` (the random id suffix is, as in the source, base-36 digits). -/
theorem create_get_roundtrip (s : Store) (now now' : Nat) (rand rand' : String)
    (hrand : ∀ c ∈ rand.data, b36Char c = true) :
    ∃ r s₁,
      handleRequest "POST" "/api/resumes/create" (ReqBody.create (some "My CV")) now rand s
        = (.ok (.resumeCreated r "Resume created"), s₁)
      ∧ (handleRequest "GET" ("/api/resumes/get/" ++ r._id) ReqBody.noBody now' rand' s₁).1
        = .ok (.resumeGot r)
      ∧ r.title = "My CV"
      ∧ r.public = false
      ∧ r.createdAt = r.updatedAt := by
  refine ⟨freshResume "My CV" now rand,
    upsertResume (freshResume "My CV" now rand) (ensureSeed s), ?_, ?_, rfl, rfl, rfl⟩
  · rw [handleRequest_create_eq]
    rfl
  · have hne : (freshResume "My CV" now rand)._id.data ≠ [] := makeId_ne_nil now rand
    have hdot : ∀ c ∈ (freshResume "My CV" now rand)._id.data, jsDotChar c = true :=
      fun c hc => (makeId_chars now rand hrand c hc).1
    rw [handleRequest_getOne _ hne hdot]
    have hs₁ := upsertResume_stored (ensureSeed_resumes_read s) (freshResume "My CV" now rand)
    have hfind : (getResumes (ensureSeed
          (upsertResume (freshResume "My CV" now rand) (ensureSeed s)))).1.find?
        (fun x => x._id == decodeURIComponent (freshResume "My CV" now rand)._id)
        = some (freshResume "My CV" now rand) := by
      rw [getResumes_ensureSeed]
      have hres : (upsertResume (freshResume "My CV" now rand) (ensureSeed s)).resumes
          = Cell.stored (upsertList (freshResume "My CV" now rand)
              (readJson (ensureSeed s).resumes [])) := by
        rw [hs₁]
      have : (getResumes (upsertResume (freshResume "My CV" now rand) (ensureSeed s))).1
          = upsertList (freshResume "My CV" now rand) (readJson (ensureSeed s).resumes []) := by
        rw [getResumes_stored hres]
      rw [this]
      rw [show decodeURIComponent (freshResume "My CV" now rand)._id
        = (freshResume "My CV" now rand)._id from decode_makeId now rand hrand]
      exact find?_upsertList (freshResume "My CV" now rand) _
    rw [runRoute_getOne_found _ _ _ _ _ _ hfind]

/-- Witness for C2 on an initially empty store with a concrete clock and
random suffix. -/
theorem create_get_roundtrip_witness :
    ∃ r s₁,
      handleRequest "POST" "/api/resumes/create" (ReqBody.create (some "My CV")) 1 "aa"
          ⟨Cell.absent, none, Cell.absent⟩
        = (.ok (.resumeCreated r "Resume created"), s₁)
      ∧ (handleRequest "GET" ("/api/resumes/get/" ++ r._id) ReqBody.noBody 2 "" s₁).1
        = .ok (.resumeGot r)
      ∧ r.title = "My CV"
      ∧ r.public = false
      ∧ r.createdAt = r.updatedAt :=
  create_get_roundtrip ⟨Cell.absent, none, Cell.absent⟩ 1 2 "aa" "" (by decide)

/-- C4: the list route returns the stored collection sorted by `updatedAt`
descending; the sort is a permutation of the collection, it is sorted
descending, and it is stable (for every timestamp the sublist with that
timestamp keeps its stored order); in the spec's scenario — three resumes
created at instants 1 < 2 < 3 and the second then updated at 4 > 3 — the
returned order is [Resume-2, Resume-3, Resume-1]. -/
theorem list_sorted_stable (now : Nat) (rand : String) (body : ReqBody) :
    (∀ (s : Store) (rs : List Resume), s.resumes = Cell.stored rs →
      (handleRequest "GET" "/api/users/resumes" body now rand s).1
        = .ok (.resumesData (sortByUpdatedDesc rs)))
    ∧ (∀ rs : List Resume, List.Perm (sortByUpdatedDesc rs) rs)
    ∧ (∀ rs : List Resume,
        (sortByUpdatedDesc rs).Pairwise (fun a b => b.updatedAt ≤ a.updatedAt))
    ∧ (∀ (rs : List Resume) (t : Nat),
        (sortByUpdatedDesc rs).filter (fun x => x.updatedAt == t)
          = rs.filter (fun x => x.updatedAt == t))
    ∧ (handleRequest "GET" "/api/users/resumes" ReqBody.noBody 9 "zz"
        (handleRequest "PUT" "/api/resumes/update"
          (ReqBody.update (UpdateBody.plain (some "resume_2_bb") (some emptyResumeData))) 4 "dd"
          (handleRequest "POST" "/api/resumes/create" (ReqBody.create (some "Resume-3")) 3 "cc"
            (handleRequest "POST" "/api/resumes/create" (ReqBody.create (some "Resume-2")) 2 "bb"
              (handleRequest "POST" "/api/resumes/create" (ReqBody.create (some "Resume-1")) 1 "aa"
                ⟨Cell.absent, none, Cell.absent⟩).2).2).2).2).1
      = .ok (.resumesData
          [{ freshResume "Resume-2" 2 "bb" with updatedAt := 4 },
           freshResume "Resume-3" 3 "cc",
           freshResume "Resume-1" 1 "aa"]) := by
  refine ⟨?_, perm_sortByUpdatedDesc, sorted_sortByUpdatedDesc, filter_sortByUpdatedDesc,
    by decide⟩
  intro s rs h
  rw [handleRequest_usersResumes_eq]
  simp [runRoute, getResumes_stored (ensureSeed_resumes_stored h)]

/-- Witness for C4 at a concrete stored collection. -/
theorem list_sorted_stable_witness :
    (handleRequest "GET" "/api/users/resumes" ReqBody.noBody 0 ""
        ⟨Cell.absent, none, Cell.stored [freshResume "A" 1 "aa", freshResume "B" 2 "bb"]⟩).1
      = .ok (.resumesData (sortByUpdatedDesc
          [freshResume "A" 1 "aa", freshResume "B" 2 "bb"])) :=
  (list_sorted_stable 0 "" ReqBody.noBody).1
    ⟨Cell.absent, none, Cell.stored [freshResume "A" 1 "aa", freshResume "B" 2 "bb"]⟩
    [freshResume "A" 1 "aa", freshResume "B" 2 "bb"] rfl
